import Mathlib

/-!
Shallow embedding of the mix_trainer ear-training core: the EQ-match
response model and scoring, the compression transfer-curve model and
scoring, the gain-delta challenge generator, and the state models of the
two audio comparison engines.  JavaScript numbers are idealised as real
numbers (rationals where the source performs only field arithmetic and
comparisons), Math.log / Math.exp / Math.pow as their real counterparts,
and Math.round x as the floor of x + 1/2.
-/

/-- JavaScript Math.round: round to nearest, half toward positive infinity. -/
noncomputable def jsRound (x : ℝ) : ℤ := ⌊x + 1/2⌋

/-- Filter shapes of the EQ trainer (types.ts of the eq feature). -/
inductive FilterShape
  | peaking
  | highpass
  | lowpass
  deriving DecidableEq

/-- One parametric EQ stage (FilterSettings in the eq feature). -/
structure FilterSettings where
  type : FilterShape
  frequency : ℝ
  gain : ℝ
  q : ℝ

namespace EqMatch

/-- approximateGainResponse from the EQ trainer: peaking stages are a
Gaussian in log2-frequency space scaled by the configured gain; high/low
pass are logistic roll-offs saturating at minus 12 dB. -/
noncomputable def approximateGainResponse (settings : FilterSettings) (frequency : ℝ) : ℝ :=
  if settings.type = FilterShape.peaking then
    Real.exp (-((|Real.log (frequency / settings.frequency) / Real.log 2| /
        max 0.15 (1 / (settings.q * 1.8))) ^ 2)) * settings.gain
  else if settings.type = FilterShape.highpass then
    (1 - 1 / (1 + (frequency / settings.frequency) ^ (max 1.2 settings.q))) * 12 - 12
  else
    -(1 / (1 + (settings.frequency / frequency) ^ (max 1.2 settings.q))) * 12

/-- computeMatchScore from the EQ trainer: 100 minus weighted penalties
(type mismatch 25, octave frequency error times 35, Q error times 6, gain
error times 1.8 when the target is peaking), rounded, floored at 0. -/
noncomputable def computeMatchScore (target user : FilterSettings) : ℤ :=
  let penalty1 : ℝ := if target.type = user.type then 0 else 25
  let freqError := |Real.log (target.frequency / user.frequency) / Real.log 2|
  let penalty2 := penalty1 + freqError * 35
  let qError := |target.q - user.q|
  let penalty3 := penalty2 + qError * 6
  let penalty4 :=
    if target.type = FilterShape.peaking then penalty3 + |target.gain - user.gain| * 1.8
    else penalty3
  max 0 (jsRound (100 - penalty4))

end EqMatch

/-- One dynamics-compressor stage plus post gain (compression/types.ts). -/
structure CompressionSettings where
  threshold : ℝ
  ratio : ℝ
  attack : ℝ
  release : ℝ
  makeup : ℝ

namespace Compress

def INPUT_MIN : ℝ := -60

def INPUT_MAX : ℝ := 0

/-- getCompressedLevel: static transfer curve of the downward compressor. -/
noncomputable def getCompressedLevel (inputDb : ℝ) (settings : CompressionSettings) : ℝ :=
  if inputDb ≤ settings.threshold then inputDb + settings.makeup
  else
    let delta := inputDb - settings.threshold
    let compressed := settings.threshold + delta / settings.ratio
    compressed + settings.makeup

/-- The i-th probe level used by computeCurveDrift (i ranges over 0..30). -/
noncomputable def driftSample (i : ℕ) : ℝ := INPUT_MIN + ((i : ℝ) / 30) * (INPUT_MAX - INPUT_MIN)

/-- computeCurveDrift: mean absolute difference of the two static transfer
curves over 31 evenly spaced probe levels. -/
noncomputable def computeCurveDrift (target user : CompressionSettings) : ℝ :=
  (∑ i ∈ Finset.range 31,
      |getCompressedLevel (driftSample i) target - getCompressedLevel (driftSample i) user|) / 31

/-- computeMatchScore from the compression trainer. -/
noncomputable def computeMatchScore (target user : CompressionSettings) : ℤ :=
  let penalty :=
    |target.threshold - user.threshold| * 1 +
    |Real.log target.ratio - Real.log user.ratio| * 42 +
    |Real.log target.attack - Real.log user.attack| * 18 +
    |Real.log target.release - Real.log user.release| * 12 +
    |target.makeup - user.makeup| * 1.2 +
    computeCurveDrift target user * 1.1
  max 0 (jsRound (100 - penalty))

end Compress

/-- Penalty terms of the EQ score that do not involve gain: type mismatch,
octave frequency error, and Q error (as accumulated by computeMatchScore). -/
noncomputable def eqPenaltyBase (target user : FilterSettings) : ℝ :=
  (if target.type = user.type then 0 else 25) +
    |Real.log (target.frequency / user.frequency) / Real.log 2| * 35 +
    |target.q - user.q| * 6

/-- EQ match score as worded by the spec: 100 minus a fixed 25 when the
types differ, the absolute frequency error in octaves times 35, the
absolute Q difference times 6 and, in the peaking case, the absolute gain
difference times 1.8; rounded to nearest and floored at 0. -/
noncomputable def eqScoreSpec (target user : FilterSettings) : ℤ :=
  max 0 (jsRound (100 -
    ((if target.type = user.type then 0 else 25) +
      |Real.logb 2 (target.frequency / user.frequency)| * 35 +
      |target.q - user.q| * 6 +
      (if target.type = FilterShape.peaking then |target.gain - user.gain| * 1.8 else 0))))

/-- Compression match score as worded by the spec: 100 minus the weighted
penalties, with the curve drift taken as the mean absolute difference of
the two static transfer curves sampled at the 31 evenly spaced input
levels -60, -58, ..., 0 dBFS; rounded to nearest and floored at 0. -/
noncomputable def compScoreSpec (target user : CompressionSettings) : ℤ :=
  max 0 (jsRound (100 -
    (|target.threshold - user.threshold| * 1 +
      |Real.log target.ratio - Real.log user.ratio| * 42 +
      |Real.log target.attack - Real.log user.attack| * 18 +
      |Real.log target.release - Real.log user.release| * 12 +
      |target.makeup - user.makeup| * 1.2 +
      ((∑ i ∈ Finset.range 31,
          |Compress.getCompressedLevel (-60 + 2 * (i : ℝ)) target -
            Compress.getCompressedLevel (-60 + 2 * (i : ℝ)) user|) / 31) * 1.1)))

namespace Loudness

/-! The gain-delta trainer's challenge generator (second file of the
loudness feature).  Math.random draws are modelled as streams of rational
numbers; each random helper takes the draws it consumes as arguments. -/

def MIN_DB : ℚ := 1/2

def MAX_DB : ℚ := 10

def MIN_SEPARATION : ℚ := 1

def OPTION_COUNT : ℕ := 4

/-- Number((x).toFixed(1)) on the magnitudes used here: round to one
decimal place, half away from zero for the positive inputs involved. -/
def toFixed1 (x : ℚ) : ℚ := (⌊x * 10 + 1/2⌋ : ℚ) / 10

/-- randomDelta: u is the magnitude draw, s the sign draw (both in [0,1)). -/
def randomDelta (u s : ℚ) : ℚ :=
  (if s < 1/2 then -1 else 1) * toFixed1 (u * (MAX_DB - MIN_DB) + MIN_DB)

/-- randomOption: identical body to randomDelta. -/
def randomOption (u s : ℚ) : ℚ :=
  (if s < 1/2 then -1 else 1) * toFixed1 (u * (MAX_DB - MIN_DB) + MIN_DB)

/-- The isFarEnough test of the rejection loop. -/
def isFarEnough (options : List ℚ) (candidate : ℚ) : Bool :=
  options.all fun v => MIN_SEPARATION ≤ |v - candidate|

/-- The while-loop of generateOptions: keeps accepting candidates that are
far enough from every value collected so far, until OPTION_COUNT values
are present.  The source has no iteration cap; fuel bounds the number of
loop iterations we are willing to unroll, and none signals that the loop
was still running after that many iterations. -/
def collectOptions (cand : ℕ → ℚ) : ℕ → ℕ → List ℚ → Option (List ℚ)
  | 0, _, options => if OPTION_COUNT ≤ options.length then some options else none
  | fuel + 1, n, options =>
    if OPTION_COUNT ≤ options.length then some options
    else collectOptions cand fuel (n + 1)
      (if isFarEnough options (cand n) then options ++ [cand n] else options)

/-- Swap of two array slots, as performed by the shuffle. -/
def listSwap (l : List ℚ) (i j : ℕ) : List ℚ :=
  (l.set i (l.getD j 0)).set j (l.getD i 0)

/-- The Fisher-Yates loop of generateOptions: i runs downward, and the
partner index is Math.floor(random * (i + 1)). -/
def fisherYatesAux (js : ℕ → ℚ) : List ℚ → ℕ → List ℚ
  | l, 0 => l
  | l, i + 1 => fisherYatesAux js (listSwap l (i + 1) (⌊js (i + 1) * ((i : ℚ) + 2)⌋.toNat)) i

def fisherYates (js : ℕ → ℚ) (l : List ℚ) : List ℚ := fisherYatesAux js l (l.length - 1)

/-- generateOptions: rejection-collect starting from the true value, then
shuffle.  u and s feed randomOption; js feeds the shuffle. -/
def generateOptions (actual : ℚ) (u s js : ℕ → ℚ) (fuel : ℕ) : Option (List ℚ) :=
  (collectOptions (fun n => randomOption (u n) (s n)) fuel 0 [actual]).map (fisherYates js)

structure Challenge where
  delta : ℚ
  options : List ℚ
  deriving DecidableEq

/-- buildChallenge: draw the true delta, then generate its options. -/
def buildChallenge (u s js : ℕ → ℚ) (fuel : ℕ) : Option Challenge :=
  (generateOptions (randomDelta (u 0) (s 0)) (fun n => u (n + 1)) (fun n => s (n + 1)) js
      fuel).map fun opts => ⟨randomDelta (u 0) (s 0), opts⟩

/-- Membership in the legal gain-delta range [-10,-0.5] union [0.5,10]. -/
def inGainRange (x : ℚ) : Prop :=
  (MIN_DB ≤ x ∧ x ≤ MAX_DB) ∨ (-MAX_DB ≤ x ∧ x ≤ -MIN_DB)

instance : DecidablePred inGainRange := fun x => by
  unfold inGainRange
  infer_instance

end Loudness

namespace GainEngine

/-! State model of useGainCompareEngine (first file of the loudness
feature).  Audio nodes are modelled structurally: a gain node's AudioParam
keeps its base value and the list of ramp events scheduled on it, a source
node keeps an identity, its loop flag and whether stop() was called on it.
The audio clock is part of the state. -/

inductive EngineStatus
  | loading
  | ready
  | error
  deriving DecidableEq

inductive MonitorMode
  | processed
  | reference
  deriving DecidableEq

def MIX_FADE : ℝ := 0.015

noncomputable def dbToGain (db : ℝ) : ℝ := (10 : ℝ) ^ (db / 20)

structure RampEvent where
  target : ℝ
  startTime : ℝ
  timeConstant : ℝ

structure GainParam where
  value : ℝ
  events : List RampEvent

/-- gain.cancelScheduledValues(now): drops events scheduled at or after now. -/
noncomputable def cancelScheduledValues (g : GainParam) (now : ℝ) : GainParam :=
  { g with events := g.events.filter fun e => decide (e.startTime < now) }

/-- gain.setTargetAtTime(target, now, tc): schedules an exponential ramp. -/
def setTargetAtTime (g : GainParam) (target now tc : ℝ) : GainParam :=
  { g with events := g.events ++ [⟨target, now, tc⟩] }

structure SourceNode where
  id : ℕ
  loop : Bool
  stopped : Bool
  deriving DecidableEq

structure Nodes where
  source : SourceNode
  processedGain : GainParam
  referenceGain : GainParam

structure EngineState where
  status : EngineStatus
  isPlaying : Bool
  isLooping : Bool
  monitorMode : MonitorMode
  buffer : Option ℕ
  nodes : Option Nodes
  now : ℝ
  nextId : ℕ

/-- applyMonitorMode: if a graph exists, crossfade the two gain nodes
toward the selected mode and report true; otherwise report false. -/
noncomputable def applyMonitorMode (deltaDb : ℝ) (mode : MonitorMode) (s : EngineState) :
    EngineState × Bool :=
  match s.nodes with
  | none => (s, false)
  | some n =>
    let pg := setTargetAtTime (cancelScheduledValues n.processedGain s.now)
      (if mode = MonitorMode.processed then dbToGain deltaDb else 0) s.now MIX_FADE
    let rg := setTargetAtTime (cancelScheduledValues n.referenceGain s.now)
      (if mode = MonitorMode.reference then 1 else 0) s.now MIX_FADE
    let out := ({ s with nodes := some { n with processedGain := pg, referenceGain := rg } }, true)
    out

/-- stopPlayback: stop and disconnect any current source, release the graph. -/
def stopPlayback (s : EngineState) : EngineState :=
  { s with nodes := none, isPlaying := false }

/-- startPlayback: no-op without a decoded buffer; otherwise tear down any
existing graph and build a fresh one (new source id), apply the current
monitor mode, and start the source. -/
noncomputable def startPlayback (deltaDb : ℝ) (s : EngineState) : EngineState :=
  match s.buffer with
  | none => s
  | some _ =>
    let s1 := stopPlayback s
    let source : SourceNode := ⟨s1.nextId, s1.isLooping, false⟩
    let pg : GainParam := ⟨dbToGain deltaDb, []⟩
    let rg : GainParam := ⟨1, []⟩
    let s2 := { s1 with nodes := some ⟨source, pg, rg⟩, nextId := s1.nextId + 1 }
    let s3 := (applyMonitorMode deltaDb s2.monitorMode s2).1
    { s3 with isPlaying := true }

/-- monitor: no-op unless ready; record the mode; crossfade if a graph
exists, otherwise start playback and apply the mode to the new graph. -/
noncomputable def monitor (deltaDb : ℝ) (mode : MonitorMode) (s : EngineState) : EngineState :=
  if s.status ≠ EngineStatus.ready then s
  else
    let s1 := { s with monitorMode := mode }
    let ab := applyMonitorMode deltaDb mode s1
    if ab.2 then ab.1
    else (applyMonitorMode deltaDb mode (startPlayback deltaDb ab.1)).1

/-- restartPlayback: no-op unless ready. -/
noncomputable def restartPlayback (deltaDb : ℝ) (s : EngineState) : EngineState :=
  if s.status ≠ EngineStatus.ready then s else startPlayback deltaDb s

end GainEngine

namespace CompEngine

/-! State model of useCompressorEngine (compression feature).  Only what
claim C8 needs is carried: the status state machine, the buffer, a graph
presence flag, and the transport surface.  Node internals are not needed
because every transport operation guards on status first. -/

inductive EngineStatus
  | loading
  | ready
  | error
  deriving DecidableEq

inductive MonitorMode
  | target
  | user
  deriving DecidableEq

/-- Outcome of the fetch-plus-decode performed by loadBuffer. -/
inductive LoadOutcome
  | noCapability
  | fetchNotOk
  | decodeError
  | success (buffer : ℕ)
  deriving DecidableEq

structure EngineState where
  status : EngineStatus
  isPlaying : Bool
  isLooping : Bool
  monitorMode : MonitorMode
  buffer : Option ℕ
  graph : Bool
  deriving DecidableEq

/-- The hook's initial state: status starts as loading, looping on,
monitor mode target, nothing decoded, no graph. -/
def initialState : EngineState :=
  ⟨EngineStatus.loading, false, true, MonitorMode.target, none, false⟩

/-- The part of loadBuffer that runs before awaiting the fetch: the
capability check (no AudioContext means status error and an early return),
then setStatus('loading'). -/
def loadStart (o : LoadOutcome) (s : EngineState) : EngineState :=
  if o = LoadOutcome.noCapability then { s with status := EngineStatus.error }
  else { s with status := EngineStatus.loading }

/-- The continuation of loadBuffer once the fetch and decode settle:
success stores the buffer and reports ready, any failure reports error. -/
def loadFinish (o : LoadOutcome) (s : EngineState) : EngineState :=
  match o with
  | LoadOutcome.success b => { s with buffer := some b, status := EngineStatus.ready }
  | _ => { s with status := EngineStatus.error }

/-- loadBuffer for a given fetch or decode outcome. -/
def loadBuffer (o : LoadOutcome) (s : EngineState) : EngineState :=
  if o = LoadOutcome.noCapability then loadStart o s else loadFinish o (loadStart o s)

/-- startPlayback: no-op without a buffer, else rebuild the graph. -/
def startPlayback (s : EngineState) : EngineState :=
  match s.buffer with
  | none => s
  | some _ => { s with graph := true, isPlaying := true }

/-- stopPlayback: unconditional teardown. -/
def stopPlayback (s : EngineState) : EngineState :=
  { s with graph := false, isPlaying := false }

/-- monitor: returns immediately unless status is ready. -/
def monitor (mode : MonitorMode) (s : EngineState) : EngineState :=
  if s.status ≠ EngineStatus.ready then s
  else
    let s1 := { s with monitorMode := mode }
    if s1.graph then s1 else startPlayback s1

/-- restartPlayback: returns immediately unless status is ready. -/
def restartPlayback (s : EngineState) : EngineState :=
  if s.status ≠ EngineStatus.ready then s else startPlayback s

/-- setLooping. -/
def setLooping (b : Bool) (s : EngineState) : EngineState :=
  { s with isLooping := b }

/-- The transport and monitor surface exposed to the presentation layer. -/
inductive TransportOp
  | restart
  | monitorOp (mode : MonitorMode)
  | stop
  | setLoop (b : Bool)
  deriving DecidableEq

def applyOp (s : EngineState) (op : TransportOp) : EngineState :=
  match op with
  | TransportOp.restart => restartPlayback s
  | TransportOp.monitorOp m => monitor m s
  | TransportOp.stop => stopPlayback s
  | TransportOp.setLoop b => setLooping b s

end CompEngine

/-- Helper for evaluating scores of the shape max 0 (jsRound x). -/
lemma max_jsRound_eq (x : ℝ) (n : ℤ) (h0 : 0 ≤ n) (h1 : (n : ℝ) ≤ x + 1/2)
    (h2 : x + 1/2 < (n : ℝ) + 1) : max 0 (jsRound x) = n := by
  unfold jsRound
  rw [Int.floor_eq_iff.mpr ⟨h1, h2⟩]
  exact max_eq_right h0

/-- C1: for every EQ parameter set x and every compression parameter set y,
the corresponding computeMatchScore applied to identical arguments returns
exactly 100: the EQ score of (x, x) is 100 and the compression score of
(y, y) is 100. -/
theorem c1_self_match_scores_100 (x : FilterSettings) (y : CompressionSettings) :
    EqMatch.computeMatchScore x x = 100 ∧ Compress.computeMatchScore y y = 100 := by
  constructor
  · have hfr : |Real.log (x.frequency / x.frequency) / Real.log 2| = 0 := by
      rcases eq_or_ne x.frequency 0 with h | h
      · simp [h]
      · simp [div_self h]
    unfold EqMatch.computeMatchScore
    simp only [hfr, sub_self, abs_zero, zero_mul, zero_add, add_zero, mul_zero,
      eq_self_iff_true, if_true, ite_self]
    exact max_jsRound_eq _ 100 (by norm_num) (by norm_num) (by norm_num)
  · have hd : Compress.computeCurveDrift y y = 0 := by
      unfold Compress.computeCurveDrift
      rw [Finset.sum_eq_zero (fun i _ => by simp)]
      simp
    unfold Compress.computeMatchScore
    simp only [hd, sub_self, abs_zero, zero_mul, mul_zero, add_zero, zero_add]
    exact max_jsRound_eq _ 100 (by norm_num) (by norm_num) (by norm_num)

/-- The octave error of a frequency against itself is zero (also when the
frequency is zero, since both the division and the logarithm then vanish). -/
lemma abs_log_div_self_div_log_two (f : ℝ) : |Real.log (f / f) / Real.log 2| = 0 := by
  rcases eq_or_ne f 0 with h | h
  · simp [h]
  · simp [div_self h]

/-- C3: the compression computeMatchScore equals 100 minus the weighted
penalty sum with the curve-drift term equal to the mean absolute transfer
curve difference sampled at the 31 evenly spaced levels -60, -58, ..., 0,
rounded to the nearest integer and floored at 0. -/
theorem c3_compression_score_formula (t u : CompressionSettings) :
    Compress.computeMatchScore t u = compScoreSpec t u := by
  have hs : ∀ i : ℕ, Compress.driftSample i = -60 + 2 * (i : ℝ) := by
    intro i
    unfold Compress.driftSample Compress.INPUT_MIN Compress.INPUT_MAX
    ring
  have hd : Compress.computeCurveDrift t u =
      (∑ i ∈ Finset.range 31,
        |Compress.getCompressedLevel (-60 + 2 * (i : ℝ)) t -
          Compress.getCompressedLevel (-60 + 2 * (i : ℝ)) u|) / 31 := by
    unfold Compress.computeCurveDrift
    rw [Finset.sum_congr rfl fun i _ => by rw [hs i]]
  unfold Compress.computeMatchScore compScoreSpec
  rw [hd]

/-- C4: the EQ computeMatchScore equals 100 minus the sum of a fixed 25 on
type mismatch, the octave frequency error times 35, the Q difference times
6 and (peaking target) the gain difference times 1.8, rounded and floored
at 0; and the scenario peaking 1000 Hz +6 dB Q 1 against peaking 1000 Hz
-6 dB Q 1 scores 78. -/
theorem c4_eq_score_formula_and_scenario :
    (∀ t u : FilterSettings, EqMatch.computeMatchScore t u = eqScoreSpec t u) ∧
    EqMatch.computeMatchScore ⟨FilterShape.peaking, 1000, 6, 1⟩
      ⟨FilterShape.peaking, 1000, -6, 1⟩ = 78 := by
  constructor
  · intro t u
    unfold EqMatch.computeMatchScore eqScoreSpec
    rcases eq_or_ne t.type FilterShape.peaking with h | h
    · simp only [h, if_true, eq_self_iff_true, Real.logb]
    · simp only [if_neg h, Real.logb, add_zero]
  · unfold EqMatch.computeMatchScore
    simp only [abs_log_div_self_div_log_two, eq_self_iff_true, if_true, ite_self]
    apply max_jsRound_eq
    · norm_num
    · rw [show |(6:ℝ) - (-6)| = 12 by rw [abs_of_nonneg] <;> norm_num]
      norm_num
    · rw [show |(6:ℝ) - (-6)| = 12 by rw [abs_of_nonneg] <;> norm_num]
      norm_num

/-- C5: for a peaking stage the response at probe frequency f is the gain
times exp(-(d/w)^2) with d the octave distance to the stage frequency and
w = max(0.15, 1/(1.8 q)); at the stage's own center frequency the response
equals the configured gain exactly. -/
theorem c5_peaking_response (s : FilterSettings) (f : ℝ) (h : s.type = FilterShape.peaking) :
    EqMatch.approximateGainResponse s f =
      s.gain * Real.exp (-((|Real.logb 2 (f / s.frequency)| /
        max 0.15 (1 / (1.8 * s.q))) ^ 2)) ∧
    EqMatch.approximateGainResponse s s.frequency = s.gain := by
  constructor
  · unfold EqMatch.approximateGainResponse
    rw [if_pos h, Real.logb, mul_comm s.q 1.8, mul_comm]
  · unfold EqMatch.approximateGainResponse
    rw [if_pos h, abs_log_div_self_div_log_two]
    simp [zero_div]

/-- Witness for C5 at a concrete peaking stage probed at its own center. -/
theorem c5_peaking_response_witness :
    (⟨FilterShape.peaking, 500, 4, 2⟩ : FilterSettings).type = FilterShape.peaking ∧
    EqMatch.approximateGainResponse ⟨FilterShape.peaking, 500, 4, 2⟩ 500 = 4 :=
  ⟨rfl, (c5_peaking_response ⟨FilterShape.peaking, 500, 4, 2⟩ 500 rfl).2⟩

/-- C10: the gain penalty of the EQ score is gated on the target's type
alone: with a non-peaking target the user's gain value never affects the
score (whatever the user's type), and with a peaking target the score is
100 minus the base penalties plus the gain penalty, whatever the user's
type. -/
theorem c10_gain_penalty_follows_target_type :
    (∀ (t u : FilterSettings) (g g' : ℝ), t.type ≠ FilterShape.peaking →
      EqMatch.computeMatchScore t { u with gain := g } =
        EqMatch.computeMatchScore t { u with gain := g' }) ∧
    (∀ t u : FilterSettings, t.type = FilterShape.peaking →
      EqMatch.computeMatchScore t u =
        max 0 (jsRound (100 - (eqPenaltyBase t u + |t.gain - u.gain| * 1.8)))) := by
  constructor
  · intro t u g g' h
    unfold EqMatch.computeMatchScore
    simp only [if_neg h]
  · intro t u h
    unfold EqMatch.computeMatchScore eqPenaltyBase
    simp only [if_pos h]

/-- Witness for C10: a high-pass target ignores the user's gain even for a
peaking user, and a peaking target keeps the gain term against a low-pass
user. -/
theorem c10_gain_penalty_follows_target_type_witness :
    ((⟨FilterShape.highpass, 100, 0, 1⟩ : FilterSettings).type ≠ FilterShape.peaking ∧
      EqMatch.computeMatchScore ⟨FilterShape.highpass, 100, 0, 1⟩
          { (⟨FilterShape.peaking, 200, 0, 1⟩ : FilterSettings) with gain := 9 } =
        EqMatch.computeMatchScore ⟨FilterShape.highpass, 100, 0, 1⟩
          { (⟨FilterShape.peaking, 200, 0, 1⟩ : FilterSettings) with gain := -9 }) ∧
    ((⟨FilterShape.peaking, 100, 3, 1⟩ : FilterSettings).type = FilterShape.peaking ∧
      EqMatch.computeMatchScore ⟨FilterShape.peaking, 100, 3, 1⟩ ⟨FilterShape.lowpass, 100, 5, 1⟩ =
        max 0 (jsRound (100 - (eqPenaltyBase ⟨FilterShape.peaking, 100, 3, 1⟩
          ⟨FilterShape.lowpass, 100, 5, 1⟩ + |(3 : ℝ) - 5| * 1.8)))) := by
  constructor
  · refine ⟨?_, ?_⟩
    · intro hc
      cases hc
    · exact c10_gain_penalty_follows_target_type.1 ⟨FilterShape.highpass, 100, 0, 1⟩
        ⟨FilterShape.peaking, 200, 0, 1⟩ 9 (-9) (fun hc => by cases hc)
  · exact ⟨rfl, c10_gain_penalty_follows_target_type.2 ⟨FilterShape.peaking, 100, 3, 1⟩
      ⟨FilterShape.lowpass, 100, 5, 1⟩ rfl⟩

/-- Replacing the k-th element after moving a copy of it to the front is a
permutation of consing the replacement value. -/
lemma getD_cons_set_perm : ∀ (t : List ℚ) (k : ℕ) (a : ℚ), k < t.length →
    List.Perm (t.getD k 0 :: t.set k a) (a :: t)
  | [], k, _, h => absurd h (by simp)
  | b :: s, 0, a, _ => by
    simp only [List.getD_cons_zero, List.set_cons_zero]
    exact List.Perm.swap a b s
  | b :: s, k + 1, a, h => by
    simp only [List.getD_cons_succ, List.set_cons_succ]
    have ih := getD_cons_set_perm s k a (by simpa using h)
    exact (List.Perm.swap b (s.getD k 0) (s.set k a)).trans
      ((ih.cons b).trans (List.Perm.swap a b s))

/-- An in-range array swap permutes the list. -/
lemma listSwap_perm : ∀ (l : List ℚ) (i j : ℕ), i < l.length → j < l.length →
    List.Perm (Loudness.listSwap l i j) l
  | [], _, _, hi, _ => absurd hi (by simp)
  | a :: t, 0, 0, _, _ => by
    simp [Loudness.listSwap]
  | a :: t, 0, j + 1, _, hj => by
    simp only [Loudness.listSwap, List.getD_cons_zero, List.getD_cons_succ,
      List.set_cons_zero, List.set_cons_succ]
    exact getD_cons_set_perm t j a (by simpa using hj)
  | a :: t, i + 1, 0, hi, _ => by
    simp only [Loudness.listSwap, List.getD_cons_zero, List.getD_cons_succ,
      List.set_cons_zero, List.set_cons_succ]
    exact getD_cons_set_perm t i a (by simpa using hi)
  | a :: t, i + 1, j + 1, hi, hj => by
    simp only [Loudness.listSwap, List.getD_cons_succ, List.set_cons_succ]
    exact (listSwap_perm t i j (by simpa using hi) (by simpa using hj)).cons a

/-- The Fisher-Yates loop yields a permutation of its input when the random
draws lie in [0,1) and the starting index is in range. -/
lemma fisherYatesAux_perm (js : ℕ → ℚ) (hjs : ∀ n, 0 ≤ js n ∧ js n < 1) :
    ∀ (k : ℕ) (l : List ℚ), k < l.length → List.Perm (Loudness.fisherYatesAux js l k) l := by
  intro k
  induction k with
  | zero =>
    intro l _
    exact List.Perm.refl l
  | succ k ih =>
    intro l hk
    rw [Loudness.fisherYatesAux]
    have hfl : (⌊js (k + 1) * ((k : ℚ) + 2)⌋ : ℤ) < (k : ℤ) + 2 := by
      apply Int.floor_lt.mpr
      push_cast
      nlinarith [(hjs (k + 1)).1, (hjs (k + 1)).2]
    have hfl0 : (0 : ℤ) ≤ ⌊js (k + 1) * ((k : ℚ) + 2)⌋ := by
      apply Int.floor_nonneg.mpr
      have := (hjs (k + 1)).1
      positivity
    have hj : (⌊js (k + 1) * ((k : ℚ) + 2)⌋).toNat < l.length := by omega
    have hswap := listSwap_perm l (k + 1) (⌊js (k + 1) * ((k : ℚ) + 2)⌋).toNat hk hj
    have hlen : (Loudness.listSwap l (k + 1) (⌊js (k + 1) * ((k : ℚ) + 2)⌋).toNat).length =
        l.length := by
      simp [Loudness.listSwap]
    exact (ih _ (by omega)).trans hswap

/-- The rejection loop, when it returns, returns exactly OPTION_COUNT
values, every value is either inherited from the start list or a drawn
candidate, pairwise separation is preserved and extended to accepted
candidates, and multiplicities of start-list members are preserved. -/
lemma collectOptions_some_spec (cand : ℕ → ℚ) :
    ∀ (fuel n : ℕ) (acc out : List ℚ), Loudness.collectOptions cand fuel n acc = some out →
      acc.length ≤ 4 →
      out.length = 4 ∧
      (∀ x ∈ out, x ∈ acc ∨ ∃ m, x = cand m) ∧
      (acc.Pairwise (fun a b => Loudness.MIN_SEPARATION ≤ |a - b|) →
        out.Pairwise (fun a b => Loudness.MIN_SEPARATION ≤ |a - b|)) ∧
      (∀ d ∈ acc, out.count d = acc.count d) := by
  intro fuel
  induction fuel with
  | zero =>
    intro n acc out h hlen
    simp only [Loudness.collectOptions, Loudness.OPTION_COUNT] at h
    split at h
    · cases h
      exact ⟨by omega, fun x hx => Or.inl hx, id, fun d _ => rfl⟩
    · cases h
  | succ fuel ih =>
    intro n acc out h hlen
    simp only [Loudness.collectOptions, Loudness.OPTION_COUNT] at h
    by_cases hc : 4 ≤ acc.length
    · rw [if_pos hc] at h
      cases h
      exact ⟨by omega, fun x hx => Or.inl hx, id, fun d _ => rfl⟩
    · rw [if_neg hc] at h
      by_cases hfar : Loudness.isFarEnough acc (cand n) = true
      · rw [if_pos hfar] at h
        have hsep : ∀ v ∈ acc, Loudness.MIN_SEPARATION ≤ |v - cand n| := by
          intro v hv
          have := List.all_eq_true.mp hfar v hv
          simpa using this
        have hlen' : (acc ++ [cand n]).length ≤ 4 := by
          simp only [List.length_append, List.length_singleton]
          omega
        obtain ⟨h1, h2, h3, h4⟩ := ih (n + 1) _ out h hlen'
        refine ⟨h1, ?_, ?_, ?_⟩
        · intro x hx
          rcases h2 x hx with hmem | hcand
          · rcases List.mem_append.mp hmem with hmem | hmem
            · exact Or.inl hmem
            · simp only [List.mem_singleton] at hmem
              exact Or.inr ⟨n, hmem⟩
          · exact Or.inr hcand
        · intro hp
          apply h3
          rw [List.pairwise_append]
          refine ⟨hp, by simp, ?_⟩
          intro a ha b hb
          simp only [List.mem_singleton] at hb
          subst hb
          exact hsep a ha
        · intro d hd
          have hne : cand n ≠ d := by
            intro he
            have hs := hsep d hd
            rw [he] at hs
            norm_num [Loudness.MIN_SEPARATION] at hs
          have hcnt := h4 d (List.mem_append.mpr (Or.inl hd))
          rw [hcnt, List.count_append]
          simp [List.count_cons, hne]
      · rw [if_neg hfar] at h
        exact ih (n + 1) _ out h hlen

/-- randomDelta and randomOption share one body. -/
lemma randomDelta_eq_randomOption (u s : ℚ) :
    Loudness.randomDelta u s = Loudness.randomOption u s := rfl

/-- Bounds on the rounded magnitude produced from a draw in [0,1). -/
lemma toFixed1_magnitude_bounds (u : ℚ) (h0 : 0 ≤ u) (h1 : u < 1) :
    1/2 ≤ Loudness.toFixed1 (u * (Loudness.MAX_DB - Loudness.MIN_DB) + Loudness.MIN_DB) ∧
    Loudness.toFixed1 (u * (Loudness.MAX_DB - Loudness.MIN_DB) + Loudness.MIN_DB) ≤ 10 := by
  unfold Loudness.toFixed1 Loudness.MAX_DB Loudness.MIN_DB
  rw [show (u * (10 - 1/2) + 1/2) * 10 + 1/2 = 95 * u + 11/2 by ring]
  constructor
  · have h5 : (5 : ℤ) ≤ ⌊(95 : ℚ) * u + 11/2⌋ := Int.le_floor.mpr (by push_cast; linarith)
    have h5q : (5 : ℚ) ≤ (⌊(95 : ℚ) * u + 11/2⌋ : ℚ) := by exact_mod_cast h5
    linarith
  · have h100 : ⌊(95 : ℚ) * u + 11/2⌋ < (101 : ℤ) := Int.floor_lt.mpr (by push_cast; linarith)
    have h100q : (⌊(95 : ℚ) * u + 11/2⌋ : ℚ) ≤ 100 := by
      have : ⌊(95 : ℚ) * u + 11/2⌋ ≤ (100 : ℤ) := by omega
      exact_mod_cast this
    linarith

/-- Any value produced by randomOption from a magnitude draw in [0,1) lies
in the legal range, whatever the sign draw. -/
lemma randomOption_range (u s : ℚ) (h0 : 0 ≤ u) (h1 : u < 1) :
    Loudness.inGainRange (Loudness.randomOption u s) := by
  obtain ⟨hl, hr⟩ := toFixed1_magnitude_bounds u h0 h1
  unfold Loudness.randomOption Loudness.inGainRange
  simp only [show Loudness.MIN_DB = 1/2 from rfl, show Loudness.MAX_DB = 10 from rfl] at hl hr ⊢
  split
  · exact Or.inr ⟨by linarith, by linarith⟩
  · exact Or.inl ⟨by linarith, by linarith⟩

/-- C6: whenever buildChallenge returns (for Math.random draw streams in
[0,1)), the returned challenge has exactly 4 options, every two distinct
options are at least 1 dB apart, the true delta occurs exactly once, and
every option lies in [-10,-0.5] union [0.5,10]. -/
theorem c6_challenge_options (u s js : ℕ → ℚ) (fuel : ℕ) (ch : Loudness.Challenge)
    (hu : ∀ n, 0 ≤ u n ∧ u n < 1) (hjs : ∀ n, 0 ≤ js n ∧ js n < 1)
    (h : Loudness.buildChallenge u s js fuel = some ch) :
    ch.options.length = 4 ∧
    ch.options.Pairwise (fun a b => 1 ≤ |a - b|) ∧
    ch.options.count ch.delta = 1 ∧
    ∀ x ∈ ch.options, Loudness.inGainRange x := by
  unfold Loudness.buildChallenge Loudness.generateOptions at h
  rcases Option.map_eq_some'.mp h with ⟨opts, hopts, hch⟩
  rcases Option.map_eq_some'.mp hopts with ⟨raw, hraw, hfy⟩
  obtain ⟨h1, h2, h3, h4⟩ := collectOptions_some_spec _ fuel 0
    [Loudness.randomDelta (u 0) (s 0)] raw hraw (by simp)
  subst hch
  subst hfy
  have hperm : List.Perm (Loudness.fisherYates js raw) raw := by
    unfold Loudness.fisherYates
    exact fisherYatesAux_perm js hjs (raw.length - 1) raw (by omega)
  refine ⟨?_, ?_, ?_, ?_⟩
  · rw [show (Loudness.Challenge.mk (Loudness.randomDelta (u 0) (s 0))
      (Loudness.fisherYates js raw)).options = Loudness.fisherYates js raw from rfl]
    rw [hperm.length_eq, h1]
  · have hp := h3 (by simp)
    exact (hperm.pairwise_iff fun hxy => by
      rw [abs_sub_comm] at hxy
      exact hxy).mpr hp
  · have hc := h4 (Loudness.randomDelta (u 0) (s 0)) (by simp)
    rw [show (Loudness.Challenge.mk (Loudness.randomDelta (u 0) (s 0))
      (Loudness.fisherYates js raw)).delta = Loudness.randomDelta (u 0) (s 0) from rfl]
    rw [hperm.count_eq, hc]
    simp
  · intro x hx
    have hx' : x ∈ raw := hperm.mem_iff.mp hx
    rcases h2 x hx' with hmem | ⟨m, rfl⟩
    · simp only [List.mem_singleton] at hmem
      subst hmem
      rw [randomDelta_eq_randomOption]
      exact randomOption_range _ _ (hu 0).1 (hu 0).2
    · exact randomOption_range _ _ (hu (m + 1)).1 (hu (m + 1)).2

/-- Witness for C6 on concrete draw streams: magnitudes 0.5, 2.5, 4.5,
6.5, all signs positive, shuffle partner always slot 0. -/
theorem c6_challenge_options_witness :
    (∀ n : ℕ, 0 ≤ (if n = 1 then (4 : ℚ)/19 else if n = 2 then 8/19 else
        if n = 3 then 12/19 else 0) ∧
      (if n = 1 then (4 : ℚ)/19 else if n = 2 then 8/19 else if n = 3 then 12/19 else 0) < 1) ∧
    Loudness.buildChallenge
        (fun n => if n = 1 then (4 : ℚ)/19 else if n = 2 then 8/19 else
          if n = 3 then 12/19 else 0)
        (fun _ => 1) (fun _ => 0) 3 =
      some ⟨1/2, [5/2, 9/2, 13/2, 1/2]⟩ ∧
    ([(5 : ℚ)/2, 9/2, 13/2, 1/2].length = 4 ∧
      List.Pairwise (fun a b => 1 ≤ |a - b|) [(5 : ℚ)/2, 9/2, 13/2, 1/2] ∧
      List.count ((1 : ℚ)/2) [(5 : ℚ)/2, 9/2, 13/2, 1/2] = 1 ∧
      ∀ x ∈ [(5 : ℚ)/2, 9/2, 13/2, 1/2], Loudness.inGainRange x) := by
  have hu : ∀ n : ℕ, 0 ≤ (if n = 1 then (4 : ℚ)/19 else if n = 2 then 8/19 else
      if n = 3 then 12/19 else 0) ∧
      (if n = 1 then (4 : ℚ)/19 else if n = 2 then 8/19 else if n = 3 then 12/19 else 0) < 1 := by
    intro n
    constructor <;> split_ifs <;> norm_num
  have hjs : ∀ n : ℕ, 0 ≤ ((fun _ => (0 : ℚ)) n) ∧ ((fun _ => (0 : ℚ)) n) < 1 := by
    intro n
    norm_num
  have hb : Loudness.buildChallenge
      (fun n => if n = 1 then (4 : ℚ)/19 else if n = 2 then 8/19 else
        if n = 3 then 12/19 else 0)
      (fun _ => 1) (fun _ => 0) 3 = some ⟨1/2, [5/2, 9/2, 13/2, 1/2]⟩ := by
    norm_num [Loudness.buildChallenge, Loudness.generateOptions, Loudness.collectOptions,
      Loudness.isFarEnough, Loudness.randomDelta, Loudness.randomOption, Loudness.toFixed1,
      Loudness.MIN_DB, Loudness.MAX_DB, Loudness.MIN_SEPARATION, Loudness.OPTION_COUNT,
      Loudness.fisherYates, Loudness.fisherYatesAux, Loudness.listSwap]
  exact ⟨hu, hb, c6_challenge_options _ _ _ 3 ⟨1/2, [5/2, 9/2, 13/2, 1/2]⟩ hu hjs hb⟩

/-- When every candidate equals the sole value already collected, the
rejection loop never accepts and never returns, whatever the fuel. -/
lemma collectOptions_const_half_none (cand : ℕ → ℚ) (hc : ∀ n, cand n = 1/2) :
    ∀ (fuel n : ℕ), Loudness.collectOptions cand fuel n [1/2] = none := by
  intro fuel
  induction fuel with
  | zero =>
    intro n
    rfl
  | succ fuel ih =>
    intro n
    show Loudness.collectOptions cand (fuel + 1) n [1/2] = none
    rw [Loudness.collectOptions]
    rw [if_neg (by norm_num [Loudness.OPTION_COUNT])]
    rw [if_neg (by rw [hc n]; norm_num [Loudness.isFarEnough, Loudness.MIN_SEPARATION])]
    exact ih (n + 1)

/-- Counterexample to C7 as stated: on the constant draw stream u = 0,
s = 1 (candidate 0.5 forever) with true delta 0.5, generateOptions never
collects 4 accepted options, for any number of loop iterations. -/
theorem c7_counterexample_nontermination :
    ¬ ∃ fuel : ℕ, (Loudness.generateOptions (1/2) (fun _ => 0) (fun _ => 1) (fun _ => 0)
      fuel).isSome = true := by
  rintro ⟨fuel, h⟩
  unfold Loudness.generateOptions at h
  rw [collectOptions_const_half_none _ (fun n => by
    norm_num [Loudness.randomOption, Loudness.toFixed1, Loudness.MIN_DB,
      Loudness.MAX_DB]) fuel 0] at h
  simp at h

/-- C7 amended: the source's rejection loop has no iteration cap, and it
terminates on some infinite draw sequences but not on all of them: with
spread-out draws it collects 4 options after finitely many iterations,
while the constant draw sequence that always reproduces the true delta
never terminates, whatever bound on iterations is tried. -/
theorem c7_rejection_loop_termination_not_universal :
    Loudness.generateOptions (1/2)
        (fun n => if n = 0 then (4 : ℚ)/19 else if n = 1 then 8/19 else
          if n = 2 then 12/19 else 0)
        (fun _ => 1) (fun _ => 0) 3 = some [5/2, 9/2, 13/2, 1/2] ∧
    ∀ fuel : ℕ, Loudness.generateOptions (1/2) (fun _ => 0) (fun _ => 1) (fun _ => 0)
      fuel = none := by
  constructor
  · norm_num [Loudness.generateOptions, Loudness.collectOptions, Loudness.isFarEnough,
      Loudness.randomOption, Loudness.toFixed1, Loudness.MIN_DB, Loudness.MAX_DB,
      Loudness.MIN_SEPARATION, Loudness.OPTION_COUNT, Loudness.fisherYates,
      Loudness.fisherYatesAux, Loudness.listSwap]
  · intro fuel
    unfold Loudness.generateOptions
    rw [collectOptions_const_half_none _ (fun n => by
      norm_num [Loudness.randomOption, Loudness.toFixed1, Loudness.MIN_DB,
        Loudness.MAX_DB]) fuel 0]
    rfl

/-- startPlayback leaves status untouched. -/
lemma compEngine_startPlayback_status (s : CompEngine.EngineState) :
    (CompEngine.startPlayback s).status = s.status := by
  unfold CompEngine.startPlayback
  cases hb : s.buffer <;> rfl

/-- restartPlayback leaves status untouched. -/
lemma compEngine_restartPlayback_status (s : CompEngine.EngineState) :
    (CompEngine.restartPlayback s).status = s.status := by
  unfold CompEngine.restartPlayback
  split
  · rfl
  · exact compEngine_startPlayback_status s

/-- monitor leaves status untouched. -/
lemma compEngine_monitor_status (m : CompEngine.MonitorMode) (s : CompEngine.EngineState) :
    (CompEngine.monitor m s).status = s.status := by
  unfold CompEngine.monitor
  split
  · rfl
  · dsimp only
    split
    · rfl
    · exact compEngine_startPlayback_status _

/-- No transport operation of the compressor engine ever changes status:
status is written only by the load path. -/
lemma compEngine_applyOp_status (s : CompEngine.EngineState) (op : CompEngine.TransportOp) :
    (CompEngine.applyOp s op).status = s.status := by
  cases op with
  | restart => exact compEngine_restartPlayback_status s
  | monitorOp m => exact compEngine_monitor_status m s
  | stop => rfl
  | setLoop b => rfl

/-- Status is invariant under any sequence of transport operations. -/
lemma compEngine_foldl_status (ops : List CompEngine.TransportOp) :
    ∀ s : CompEngine.EngineState,
      (ops.foldl CompEngine.applyOp s).status = s.status := by
  induction ops with
  | nil => intro s; rfl
  | cons op ops ih =>
    intro s
    rw [List.foldl_cons, ih, compEngine_applyOp_status]

/-- C8: when the fetch returns non-OK, decoding fails, or the runtime has
no audio capability, the compressor engine goes from loading to error and
never reaches ready for that URL: the initial status is loading, the
fetch/decode failure paths pass through status loading and end at error,
no transport operation ever changes status afterward (no automatic retry),
and restartPlayback and monitor are exact no-ops on the failed state. -/
theorem c8_load_failure_terminal (s : CompEngine.EngineState) (o : CompEngine.LoadOutcome)
    (hfail : ∀ b, o ≠ CompEngine.LoadOutcome.success b) :
    CompEngine.initialState.status = CompEngine.EngineStatus.loading ∧
    (o ≠ CompEngine.LoadOutcome.noCapability →
      (CompEngine.loadStart o s).status = CompEngine.EngineStatus.loading) ∧
    (CompEngine.loadBuffer o s).status = CompEngine.EngineStatus.error ∧
    (CompEngine.loadBuffer o s).status ≠ CompEngine.EngineStatus.ready ∧
    (∀ ops : List CompEngine.TransportOp,
      (ops.foldl CompEngine.applyOp (CompEngine.loadBuffer o s)).status =
        CompEngine.EngineStatus.error) ∧
    CompEngine.restartPlayback (CompEngine.loadBuffer o s) = CompEngine.loadBuffer o s ∧
    (∀ m, CompEngine.monitor m (CompEngine.loadBuffer o s) = CompEngine.loadBuffer o s) := by
  have herr : (CompEngine.loadBuffer o s).status = CompEngine.EngineStatus.error := by
    unfold CompEngine.loadBuffer CompEngine.loadStart CompEngine.loadFinish
    by_cases hcap : o = CompEngine.LoadOutcome.noCapability
    · rw [if_pos hcap, if_pos hcap]
    · rw [if_neg hcap, if_neg hcap]
      cases o with
      | noCapability => exact absurd rfl hcap
      | fetchNotOk => rfl
      | decodeError => rfl
      | success b => exact absurd rfl (hfail b)
  refine ⟨rfl, ?_, herr, ?_, ?_, ?_, ?_⟩
  · intro hcap
    unfold CompEngine.loadStart
    rw [if_neg hcap]
  · rw [herr]
    intro hco
    cases hco
  · intro ops
    rw [compEngine_foldl_status, herr]
  · unfold CompEngine.restartPlayback
    rw [if_pos]
    rw [herr]
    intro hco
    cases hco
  · intro m
    unfold CompEngine.monitor
    rw [if_pos]
    rw [herr]
    intro hco
    cases hco

/-- Witness for C8: a 404 fetch on the freshly mounted engine. -/
theorem c8_load_failure_terminal_witness :
    (∀ b, CompEngine.LoadOutcome.fetchNotOk ≠ CompEngine.LoadOutcome.success b) ∧
    (CompEngine.initialState.status = CompEngine.EngineStatus.loading ∧
      (CompEngine.LoadOutcome.fetchNotOk ≠ CompEngine.LoadOutcome.noCapability →
        (CompEngine.loadStart CompEngine.LoadOutcome.fetchNotOk CompEngine.initialState).status =
          CompEngine.EngineStatus.loading) ∧
      (CompEngine.loadBuffer CompEngine.LoadOutcome.fetchNotOk
          CompEngine.initialState).status = CompEngine.EngineStatus.error ∧
      (CompEngine.loadBuffer CompEngine.LoadOutcome.fetchNotOk
          CompEngine.initialState).status ≠ CompEngine.EngineStatus.ready ∧
      (∀ ops : List CompEngine.TransportOp,
        (ops.foldl CompEngine.applyOp (CompEngine.loadBuffer CompEngine.LoadOutcome.fetchNotOk
          CompEngine.initialState)).status = CompEngine.EngineStatus.error) ∧
      CompEngine.restartPlayback (CompEngine.loadBuffer CompEngine.LoadOutcome.fetchNotOk
          CompEngine.initialState) =
        CompEngine.loadBuffer CompEngine.LoadOutcome.fetchNotOk CompEngine.initialState ∧
      (∀ m, CompEngine.monitor m (CompEngine.loadBuffer CompEngine.LoadOutcome.fetchNotOk
          CompEngine.initialState) =
        CompEngine.loadBuffer CompEngine.LoadOutcome.fetchNotOk CompEngine.initialState)) := by
  have hfail : ∀ b, CompEngine.LoadOutcome.fetchNotOk ≠ CompEngine.LoadOutcome.success b := by
    intro b hco
    cases hco
  exact ⟨hfail, c8_load_failure_terminal CompEngine.initialState
    CompEngine.LoadOutcome.fetchNotOk hfail⟩

/-- applyMonitorMode with an existing graph: both gains get their pending
events cancelled and one exponential ramp scheduled at the current clock
time, the selected chain toward its audible level and the other toward
silence; everything else, the source node included, is untouched. -/
lemma gainEngine_applyMonitorMode_some (deltaDb : ℝ) (m : GainEngine.MonitorMode)
    (s : GainEngine.EngineState) (n : GainEngine.Nodes) (hn : s.nodes = some n) :
    GainEngine.applyMonitorMode deltaDb m s =
      ({ s with nodes := some { n with
          processedGain := GainEngine.setTargetAtTime
            (GainEngine.cancelScheduledValues n.processedGain s.now)
            (if m = GainEngine.MonitorMode.processed then GainEngine.dbToGain deltaDb else 0)
            s.now GainEngine.MIX_FADE,
          referenceGain := GainEngine.setTargetAtTime
            (GainEngine.cancelScheduledValues n.referenceGain s.now)
            (if m = GainEngine.MonitorMode.reference then 1 else 0)
            s.now GainEngine.MIX_FADE } }, true) := by
  unfold GainEngine.applyMonitorMode
  rw [hn]

/-- monitor with status ready and an existing graph reduces to the pure
crossfade: record the mode and reschedule the two gain params. -/
lemma gainEngine_monitor_graph (deltaDb : ℝ) (m : GainEngine.MonitorMode)
    (s : GainEngine.EngineState) (n : GainEngine.Nodes)
    (hst : s.status = GainEngine.EngineStatus.ready) (hn : s.nodes = some n) :
    GainEngine.monitor deltaDb m s =
      { s with monitorMode := m, nodes := some { n with
          processedGain := GainEngine.setTargetAtTime
            (GainEngine.cancelScheduledValues n.processedGain s.now)
            (if m = GainEngine.MonitorMode.processed then GainEngine.dbToGain deltaDb else 0)
            s.now GainEngine.MIX_FADE,
          referenceGain := GainEngine.setTargetAtTime
            (GainEngine.cancelScheduledValues n.referenceGain s.now)
            (if m = GainEngine.MonitorMode.reference then 1 else 0)
            s.now GainEngine.MIX_FADE } } := by
  unfold GainEngine.monitor
  rw [if_neg (by rw [hst]; intro hco; exact hco rfl)]
  dsimp only
  rw [gainEngine_applyMonitorMode_some deltaDb m { s with monitorMode := m } n hn]
  rfl

/-- A monitor call on a live ready graph keeps the source, the playing
flag, the id counter and the status, delivering some rescheduled graph. -/
lemma gainEngine_monitor_keeps (deltaDb : ℝ) (m : GainEngine.MonitorMode)
    (s : GainEngine.EngineState) (n : GainEngine.Nodes)
    (hst : s.status = GainEngine.EngineStatus.ready) (hn : s.nodes = some n) :
    ∃ n2, (GainEngine.monitor deltaDb m s).nodes = some n2 ∧
      n2.source = n.source ∧
      (GainEngine.monitor deltaDb m s).isPlaying = s.isPlaying ∧
      (GainEngine.monitor deltaDb m s).nextId = s.nextId ∧
      (GainEngine.monitor deltaDb m s).status = s.status := by
  rw [gainEngine_monitor_graph deltaDb m s n hst hn]
  exact ⟨_, rfl, rfl, rfl, rfl, rfl⟩

/-- C9: with a live graph (source and gain nodes present) and status
ready, monitor only schedules exponential ramps of time constant 0.015 s
on the existing gain nodes, the selected chain toward audible and the
other toward silence; the source node is neither stopped, replaced nor
restarted, no new node is created, and isPlaying and the rest of the
engine state are unchanged; the same holds across a sequence of two
monitor calls. -/
theorem c9_monitor_crossfades_without_restart (deltaDb : ℝ)
    (m1 m2 : GainEngine.MonitorMode) (s : GainEngine.EngineState) (n : GainEngine.Nodes)
    (hst : s.status = GainEngine.EngineStatus.ready) (hn : s.nodes = some n) :
    (∀ m, ∃ n2, (GainEngine.monitor deltaDb m s).nodes = some n2 ∧
      n2.source = n.source ∧
      n2.processedGain = GainEngine.setTargetAtTime
        (GainEngine.cancelScheduledValues n.processedGain s.now)
        (if m = GainEngine.MonitorMode.processed then GainEngine.dbToGain deltaDb else 0)
        s.now 0.015 ∧
      n2.referenceGain = GainEngine.setTargetAtTime
        (GainEngine.cancelScheduledValues n.referenceGain s.now)
        (if m = GainEngine.MonitorMode.reference then 1 else 0) s.now 0.015) ∧
    (∀ m, (GainEngine.monitor deltaDb m s).isPlaying = s.isPlaying ∧
      (GainEngine.monitor deltaDb m s).nextId = s.nextId ∧
      (GainEngine.monitor deltaDb m s).isLooping = s.isLooping ∧
      (GainEngine.monitor deltaDb m s).now = s.now ∧
      (GainEngine.monitor deltaDb m s).status = s.status ∧
      (GainEngine.monitor deltaDb m s).buffer = s.buffer) ∧
    (∃ n3, (GainEngine.monitor deltaDb m2 (GainEngine.monitor deltaDb m1 s)).nodes = some n3 ∧
      n3.source = n.source ∧
      (GainEngine.monitor deltaDb m2 (GainEngine.monitor deltaDb m1 s)).isPlaying = s.isPlaying ∧
      (GainEngine.monitor deltaDb m2 (GainEngine.monitor deltaDb m1 s)).nextId = s.nextId) := by
  refine ⟨?_, ?_, ?_⟩
  · intro m
    rw [gainEngine_monitor_graph deltaDb m s n hst hn]
    exact ⟨_, rfl, rfl, rfl, rfl⟩
  · intro m
    rw [gainEngine_monitor_graph deltaDb m s n hst hn]
    exact ⟨rfl, rfl, rfl, rfl, rfl, rfl⟩
  · obtain ⟨n2, hn2, hsrc2, hp2, hid2, hstat2⟩ :=
      gainEngine_monitor_keeps deltaDb m1 s n hst hn
    obtain ⟨n3, hn3, hsrc3, hp3, hid3, hstat3⟩ :=
      gainEngine_monitor_keeps deltaDb m2 _ n2 (hstat2.trans hst) hn2
    exact ⟨n3, hn3, hsrc3.trans hsrc2, hp3.trans hp2, hid3.trans hid2⟩

/-- Witness for C9: a ready engine playing source node 0 with both gain
params idle; monitor('reference') then monitor('processed') with a +3 dB
delta only reschedules ramps and keeps the source, the playing flag and
the node id counter. -/
theorem c9_monitor_crossfades_without_restart_witness :
    ((⟨GainEngine.EngineStatus.ready, true, true, GainEngine.MonitorMode.processed, some 0,
        some ⟨⟨0, true, false⟩, ⟨1, []⟩, ⟨1, []⟩⟩, 0, 1⟩ : GainEngine.EngineState).status =
        GainEngine.EngineStatus.ready ∧
      (⟨GainEngine.EngineStatus.ready, true, true, GainEngine.MonitorMode.processed, some 0,
        some ⟨⟨0, true, false⟩, ⟨1, []⟩, ⟨1, []⟩⟩, 0, 1⟩ : GainEngine.EngineState).nodes =
        some ⟨⟨0, true, false⟩, ⟨1, []⟩, ⟨1, []⟩⟩) ∧
    (∃ n2, (GainEngine.monitor 3 GainEngine.MonitorMode.reference
        ⟨GainEngine.EngineStatus.ready, true, true, GainEngine.MonitorMode.processed, some 0,
          some ⟨⟨0, true, false⟩, ⟨1, []⟩, ⟨1, []⟩⟩, 0, 1⟩).nodes = some n2 ∧
      n2.source = (⟨0, true, false⟩ : GainEngine.SourceNode) ∧
      n2.processedGain = GainEngine.setTargetAtTime
        (GainEngine.cancelScheduledValues ⟨1, []⟩ 0) 0 0 0.015 ∧
      n2.referenceGain = GainEngine.setTargetAtTime
        (GainEngine.cancelScheduledValues ⟨1, []⟩ 0) 1 0 0.015) ∧
    (GainEngine.monitor 3 GainEngine.MonitorMode.reference
      ⟨GainEngine.EngineStatus.ready, true, true, GainEngine.MonitorMode.processed, some 0,
        some ⟨⟨0, true, false⟩, ⟨1, []⟩, ⟨1, []⟩⟩, 0, 1⟩).isPlaying = true ∧
    (GainEngine.monitor 3 GainEngine.MonitorMode.processed
      (GainEngine.monitor 3 GainEngine.MonitorMode.reference
        ⟨GainEngine.EngineStatus.ready, true, true, GainEngine.MonitorMode.processed, some 0,
          some ⟨⟨0, true, false⟩, ⟨1, []⟩, ⟨1, []⟩⟩, 0, 1⟩)).nextId = 1 := by
  have H := c9_monitor_crossfades_without_restart 3 GainEngine.MonitorMode.reference
    GainEngine.MonitorMode.processed
    ⟨GainEngine.EngineStatus.ready, true, true, GainEngine.MonitorMode.processed, some 0,
      some ⟨⟨0, true, false⟩, ⟨1, []⟩, ⟨1, []⟩⟩, 0, 1⟩
    ⟨⟨0, true, false⟩, ⟨1, []⟩, ⟨1, []⟩⟩ rfl rfl
  refine ⟨⟨rfl, rfl⟩, ?_, ?_, ?_⟩
  · exact H.1 GainEngine.MonitorMode.reference
  · exact (H.2.1 GainEngine.MonitorMode.reference).1
  · obtain ⟨n3, _, _, _, hid3⟩ := H.2.2
    exact hid3

/-- The score is antitone in the penalty. -/
lemma max_jsRound_mono {x y : ℝ} (h : x ≤ y) : max 0 (jsRound x) ≤ max 0 (jsRound y) := by
  unfold jsRound
  exact max_le_max le_rfl (Int.floor_le_floor (by linarith))

/-- When b lies between a and c, the distance from a to c splits. -/
lemma between_abs_sum (a b c : ℝ) (h : (a ≤ b ∧ b ≤ c) ∨ (c ≤ b ∧ b ≤ a)) :
    |a - c| = |a - b| + |b - c| := by
  rcases h with ⟨h1, h2⟩ | ⟨h1, h2⟩
  · rw [abs_of_nonpos (by linarith), abs_of_nonpos (by linarith), abs_of_nonpos (by linarith)]
    ring
  · rw [abs_of_nonneg (by linarith), abs_of_nonneg (by linarith), abs_of_nonneg (by linarith)]
    ring

/-- Closed form of the drift probe levels. -/
lemma driftSample_eq (i : ℕ) : Compress.driftSample i = -60 + 2 * (i : ℝ) := by
  unfold Compress.driftSample Compress.INPUT_MIN Compress.INPUT_MAX
  ring

/-- The probe levels stay in the input range [-60, 0]. -/
lemma driftSample_bounds (i : ℕ) (hi : i < 31) :
    -60 ≤ Compress.driftSample i ∧ Compress.driftSample i ≤ 0 := by
  rw [driftSample_eq]
  have h30 : (i : ℝ) ≤ 30 := by exact_mod_cast Nat.lt_succ_iff.mp hi
  have h0 : (0 : ℝ) ≤ (i : ℝ) := Nat.cast_nonneg i
  constructor <;> linarith

/-- Transfer level at or below threshold. -/
lemma getCompressedLevel_below (x : ℝ) (s : CompressionSettings) (h : x ≤ s.threshold) :
    Compress.getCompressedLevel x s = x + s.makeup := by
  unfold Compress.getCompressedLevel
  rw [if_pos h]

/-- Transfer level above threshold. -/
lemma getCompressedLevel_above (x : ℝ) (s : CompressionSettings) (h : ¬x ≤ s.threshold) :
    Compress.getCompressedLevel x s =
      s.threshold + (x - s.threshold) / s.ratio + s.makeup := by
  unfold Compress.getCompressedLevel
  rw [if_neg h]

/-- The drift can drop by at most the mean of per-sample bounds on how far
the user curve itself moved. -/
lemma computeCurveDrift_sub_le (t u u' : CompressionSettings) (c : ℕ → ℝ)
    (hb : ∀ i ∈ Finset.range 31,
      |Compress.getCompressedLevel (Compress.driftSample i) u -
        Compress.getCompressedLevel (Compress.driftSample i) u'| ≤ c i) :
    Compress.computeCurveDrift t u - Compress.computeCurveDrift t u' ≤
      (∑ i ∈ Finset.range 31, c i) / 31 := by
  unfold Compress.computeCurveDrift
  rw [div_sub_div_same]
  gcongr
  rw [← Finset.sum_sub_distrib]
  apply Finset.sum_le_sum
  intro i hi
  have h1 := abs_sub_abs_le_abs_sub
    (Compress.getCompressedLevel (Compress.driftSample i) t -
      Compress.getCompressedLevel (Compress.driftSample i) u)
    (Compress.getCompressedLevel (Compress.driftSample i) t -
      Compress.getCompressedLevel (Compress.driftSample i) u')
  rw [show (Compress.getCompressedLevel (Compress.driftSample i) t -
        Compress.getCompressedLevel (Compress.driftSample i) u) -
      (Compress.getCompressedLevel (Compress.driftSample i) t -
        Compress.getCompressedLevel (Compress.driftSample i) u') =
      -(Compress.getCompressedLevel (Compress.driftSample i) u -
        Compress.getCompressedLevel (Compress.driftSample i) u') by ring, abs_neg] at h1
  exact h1.trans (hb i hi)

/-- With both thresholds at 0 and equal makeups, every probe is at or
below threshold and the curve drift vanishes, whatever the ratios. -/
lemma drift_zero_threshold_zero (r r' : ℝ) :
    Compress.computeCurveDrift ⟨0, r, 20, 200, 0⟩ ⟨0, r', 20, 200, 0⟩ = 0 := by
  unfold Compress.computeCurveDrift
  rw [Finset.sum_eq_zero]
  · norm_num
  · intro i hi
    have hle := (driftSample_bounds i (Finset.mem_range.mp hi)).2
    rw [getCompressedLevel_below _ _ hle, getCompressedLevel_below _ _ hle]
    simp

/-- Counterexample to C2 as stated: with target ratio 4 (threshold 0 so
the drift term vanishes), the user ratio 8 is farther from the target
than user ratio 1 in absolute distance, yet scores strictly higher
(71 against 42), because the ratio penalty lives in log space. -/
theorem c2_counterexample_two_sided :
    |(8 : ℝ) - 4| > |(1 : ℝ) - 4| ∧
    Compress.computeMatchScore ⟨0, 4, 20, 200, 0⟩ ⟨0, 8, 20, 200, 0⟩ >
      Compress.computeMatchScore ⟨0, 4, 20, 200, 0⟩ ⟨0, 1, 20, 200, 0⟩ := by
  have hL1 : (0.6931471803 : ℝ) < Real.log 2 := Real.log_two_gt_d9
  have hL2 : Real.log 2 < 0.6931471808 := Real.log_two_lt_d9
  have h4 : Real.log (4 : ℝ) = 2 * Real.log 2 := by
    rw [show (4 : ℝ) = 2 ^ (2 : ℕ) by norm_num, Real.log_pow]
    push_cast
    ring
  have h8 : Real.log (8 : ℝ) = 3 * Real.log 2 := by
    rw [show (8 : ℝ) = 2 ^ (3 : ℕ) by norm_num, Real.log_pow]
    push_cast
    ring
  have hB : Compress.computeMatchScore ⟨0, 4, 20, 200, 0⟩ ⟨0, 8, 20, 200, 0⟩ = 71 := by
    unfold Compress.computeMatchScore
    rw [drift_zero_threshold_zero]
    simp only [sub_self, abs_zero, zero_mul, mul_zero, add_zero, zero_add, mul_one, one_mul]
    rw [show |Real.log 4 - Real.log 8| = Real.log 2 by
      rw [h4, h8, show (2 : ℝ) * Real.log 2 - 3 * Real.log 2 = -Real.log 2 by ring, abs_neg,
        abs_of_nonneg (Real.log_nonneg (by norm_num))]]
    apply max_jsRound_eq
    · norm_num
    · push_cast
      linarith
    · push_cast
      linarith
  have hA : Compress.computeMatchScore ⟨0, 4, 20, 200, 0⟩ ⟨0, 1, 20, 200, 0⟩ = 42 := by
    unfold Compress.computeMatchScore
    rw [drift_zero_threshold_zero]
    simp only [sub_self, abs_zero, zero_mul, mul_zero, add_zero, zero_add, mul_one, one_mul]
    rw [show |Real.log 4 - Real.log 1| = 2 * Real.log 2 by
      rw [h4, Real.log_one, sub_zero,
        abs_of_nonneg (by positivity : (0 : ℝ) ≤ 2 * Real.log 2)]]
    apply max_jsRound_eq
    · norm_num
    · push_cast
      linarith
    · push_cast
      linarith
  refine ⟨?_, ?_⟩
  · rw [show |(8 : ℝ) - 4| = 4 by rw [abs_of_nonneg] <;> norm_num,
      show |(1 : ℝ) - 4| = 3 by rw [abs_of_nonpos] <;> norm_num]
    norm_num
  · rw [hA, hB]
    norm_num

/-- The static transfer curve only reads threshold, ratio and makeup. -/
lemma getCompressedLevel_congr (x : ℝ) (u u' : CompressionSettings)
    (heth : u'.threshold = u.threshold) (her : u'.ratio = u.ratio)
    (hemk : u'.makeup = u.makeup) :
    Compress.getCompressedLevel x u' = Compress.getCompressedLevel x u := by
  unfold Compress.getCompressedLevel
  rw [heth, her, hemk]

/-- Moving only the threshold moves the curve pointwise by at most
(1 - 1/ratio) times the threshold move. -/
lemma level_threshold_bound (x : ℝ) (u u' : CompressionSettings)
    (her : u'.ratio = u.ratio) (hemk : u'.makeup = u.makeup) (hr : 1 ≤ u.ratio) :
    |Compress.getCompressedLevel x u - Compress.getCompressedLevel x u'| ≤
      (1 - 1 / u.ratio) * |u.threshold - u'.threshold| := by
  have hr0 : (0 : ℝ) < u.ratio := lt_of_lt_of_le one_pos hr
  have hnn : (0 : ℝ) ≤ 1 - 1 / u.ratio := by
    have h1 : 1 / u.ratio ≤ 1 := by
      rw [div_le_one hr0]
      exact hr
    linarith
  have habs' : u'.threshold - u.threshold ≤ |u.threshold - u'.threshold| := by
    rw [abs_sub_comm]
    exact le_abs_self _
  rcases le_or_lt x u.threshold with h1 | h1 <;> rcases le_or_lt x u'.threshold with h2 | h2
  · rw [getCompressedLevel_below _ _ h1, getCompressedLevel_below _ _ h2, hemk]
    simpa using mul_nonneg hnn (abs_nonneg (u.threshold - u'.threshold))
  · rw [getCompressedLevel_below _ _ h1, getCompressedLevel_above _ _ (not_le.mpr h2),
      her, hemk]
    rw [show x + u.makeup - (u'.threshold + (x - u'.threshold) / u.ratio + u.makeup) =
        (x - u'.threshold) * (1 - 1 / u.ratio) by field_simp; ring]
    rw [abs_of_nonneg (mul_nonneg (by linarith) hnn)]
    have hab : x - u'.threshold ≤ |u.threshold - u'.threshold| :=
      le_trans (by linarith [le_abs_self (u.threshold - u'.threshold)]) le_rfl
    calc (x - u'.threshold) * (1 - 1 / u.ratio)
        ≤ |u.threshold - u'.threshold| * (1 - 1 / u.ratio) :=
          mul_le_mul_of_nonneg_right hab hnn
      _ = (1 - 1 / u.ratio) * |u.threshold - u'.threshold| := mul_comm _ _
  · rw [getCompressedLevel_above _ _ (not_le.mpr h1), getCompressedLevel_below _ _ h2, hemk]
    rw [show u.threshold + (x - u.threshold) / u.ratio + u.makeup - (x + u.makeup) =
        -((x - u.threshold) * (1 - 1 / u.ratio)) by field_simp; ring, abs_neg]
    rw [abs_of_nonneg (mul_nonneg (by linarith) hnn)]
    have hab : x - u.threshold ≤ |u.threshold - u'.threshold| := by
      have hx2 : x - u.threshold ≤ u'.threshold - u.threshold := by linarith
      linarith
    calc (x - u.threshold) * (1 - 1 / u.ratio)
        ≤ |u.threshold - u'.threshold| * (1 - 1 / u.ratio) :=
          mul_le_mul_of_nonneg_right hab hnn
      _ = (1 - 1 / u.ratio) * |u.threshold - u'.threshold| := mul_comm _ _
  · rw [getCompressedLevel_above _ _ (not_le.mpr h1), getCompressedLevel_above _ _
      (not_le.mpr h2), her, hemk]
    rw [show u.threshold + (x - u.threshold) / u.ratio + u.makeup -
        (u'.threshold + (x - u'.threshold) / u.ratio + u.makeup) =
        (u.threshold - u'.threshold) * (1 - 1 / u.ratio) by field_simp; ring]
    rw [abs_mul, abs_of_nonneg hnn]
    exact le_of_eq (mul_comm _ _)

/-- Moving only the ratio moves the curve pointwise by at most the probe's
distance above -60 times the move of the inverse ratio. -/
lemma level_ratio_bound (x : ℝ) (u u' : CompressionSettings)
    (heth : u'.threshold = u.threshold) (hemk : u'.makeup = u.makeup)
    (hth : -60 ≤ u.threshold) (hx : -60 ≤ x)
    (hr : 0 < u.ratio) (hr' : 0 < u'.ratio) :
    |Compress.getCompressedLevel x u - Compress.getCompressedLevel x u'| ≤
      (x + 60) * |1 / u.ratio - 1 / u'.ratio| := by
  rcases le_or_lt x u.threshold with h1 | h1
  · rw [getCompressedLevel_below _ _ h1, getCompressedLevel_below _ _ (by rw [heth]; exact h1),
      hemk]
    simpa using mul_nonneg (by linarith : (0:ℝ) ≤ x + 60) (abs_nonneg (1/u.ratio - 1/u'.ratio))
  · rw [getCompressedLevel_above _ _ (not_le.mpr h1), getCompressedLevel_above _ _
      (by rw [heth]; exact not_le.mpr h1), heth, hemk]
    rw [show u.threshold + (x - u.threshold) / u.ratio + u.makeup -
        (u.threshold + (x - u.threshold) / u'.ratio + u.makeup) =
        (x - u.threshold) * (1 / u.ratio - 1 / u'.ratio) by field_simp; ring]
    rw [abs_mul, abs_of_nonneg (by linarith : (0:ℝ) ≤ x - u.threshold)]
    exact mul_le_mul_of_nonneg_right (by linarith) (abs_nonneg _)

/-- Moving only the makeup shifts the curve pointwise by exactly the
makeup difference. -/
lemma level_makeup_diff (x : ℝ) (u u' : CompressionSettings)
    (heth : u'.threshold = u.threshold) (her : u'.ratio = u.ratio) :
    Compress.getCompressedLevel x u - Compress.getCompressedLevel x u' =
      u.makeup - u'.makeup := by
  unfold Compress.getCompressedLevel
  rw [heth, her]
  split_ifs <;> ring

/-- In the knob domain the weighted log-ratio penalty dominates the
weighted inverse-ratio drift bound. -/
lemma log_dominates_inv (a b : ℝ) (ha : 1 ≤ a) (hab : a ≤ b) :
    33 * (1 / a - 1 / b) ≤ 42 * (Real.log b - Real.log a) := by
  have ha0 : (0 : ℝ) < a := by linarith
  have hb0 : (0 : ℝ) < b := by linarith
  have hlog : Real.log b - Real.log a = Real.log (b / a) :=
    (Real.log_div (ne_of_gt hb0) (ne_of_gt ha0)).symm
  have hlb : 1 - a / b ≤ Real.log (b / a) := by
    have h := Real.log_le_sub_one_of_pos (show (0 : ℝ) < a / b by positivity)
    have hinv : Real.log (a / b) = -Real.log (b / a) := by
      rw [← Real.log_inv]
      congr 1
      field_simp
    linarith [h, hinv.symm.le, hinv.le]
  have key : 33 * (1 / a - 1 / b) ≤ 42 * (1 - a / b) := by
    have e1 : 33 * (1 / a - 1 / b) = 33 * (b - a) / (a * b) := by
      field_simp
    have e2 : 42 * (1 - a / b) = 42 * (b - a) / b := by
      field_simp
    rw [e1, e2, div_le_div_iff₀ (by positivity) hb0]
    nlinarith [mul_nonneg (mul_nonneg (sub_nonneg.mpr hab) (le_of_lt hb0))
      (by linarith : (0 : ℝ) ≤ 42 * a - 33)]
  rw [hlog]
  linarith

/-- Sum of a constant over the 30 nonzero sample indices. -/
lemma sum_range31_skip0 (K : ℝ) :
    (∑ i ∈ Finset.range 31, (if i = 0 then (0 : ℝ) else K)) = 30 * K := by
  rw [Finset.sum_congr rfl (fun i _ => show (if i = 0 then (0 : ℝ) else K) =
    K - (if i = 0 then K else 0) from by split_ifs <;> ring)]
  rw [Finset.sum_sub_distrib, Finset.sum_const, Finset.card_range,
    Finset.sum_ite_eq' (Finset.range 31) 0 (fun _ => K)]
  simp [Finset.mem_range]
  ring

/-- Gauss sum of the sample indices. -/
lemma sum_range31_id : (∑ i ∈ Finset.range 31, (i : ℝ)) = 465 := by
  rw [← Nat.cast_sum]
  rw [show (∑ i ∈ Finset.range 31, i) = 465 from by decide]
  norm_num

/-- One-sided monotonicity of the compression score in the threshold. -/
lemma compScore_mono_threshold (t u u' : CompressionSettings)
    (her : u'.ratio = u.ratio) (hea : u'.attack = u.attack)
    (herel : u'.release = u.release) (hemk : u'.makeup = u.makeup)
    (hside : (t.threshold ≤ u.threshold ∧ u.threshold ≤ u'.threshold) ∨
      (u'.threshold ≤ u.threshold ∧ u.threshold ≤ t.threshold))
    (hT : -60 ≤ t.threshold) (hT' : -60 ≤ u'.threshold)
    (hr1 : 1 ≤ u.ratio) (hr12 : u.ratio ≤ 12) :
    Compress.computeMatchScore t u' ≤ Compress.computeMatchScore t u := by
  have hTu : -60 ≤ u.threshold := by
    rcases hside with ⟨ha, hb⟩ | ⟨ha, hb⟩ <;> linarith
  have hΔ0 : (0 : ℝ) ≤ |u.threshold - u'.threshold| := abs_nonneg _
  have hr0 : (0 : ℝ) < u.ratio := by linarith
  have hdrop : Compress.computeCurveDrift t u - Compress.computeCurveDrift t u' ≤
      (30 * ((1 - 1 / u.ratio) * |u.threshold - u'.threshold|)) / 31 := by
    have hb : ∀ i ∈ Finset.range 31,
        |Compress.getCompressedLevel (Compress.driftSample i) u -
          Compress.getCompressedLevel (Compress.driftSample i) u'| ≤
        (if i = 0 then (0 : ℝ) else (1 - 1 / u.ratio) * |u.threshold - u'.threshold|) := by
      intro i _
      by_cases hi0 : i = 0
      · subst hi0
        have hx : Compress.driftSample 0 = -60 := by
          rw [driftSample_eq]
          norm_num
        rw [if_pos rfl, hx, getCompressedLevel_below _ _ hTu,
          getCompressedLevel_below _ _ hT', hemk]
        simp
      · rw [if_neg hi0]
        exact level_threshold_bound _ u u' her hemk hr1
    have h := computeCurveDrift_sub_le t u u' _ hb
    rw [sum_range31_skip0] at h
    exact h
  have habs : |t.threshold - u'.threshold| =
      |t.threshold - u.threshold| + |u.threshold - u'.threshold| :=
    between_abs_sum _ _ _ hside
  have hfac : 1.1 * ((30 * ((1 - 1 / u.ratio) * |u.threshold - u'.threshold|)) / 31) ≤
      |u.threshold - u'.threshold| := by
    have hinv : 1 / 12 ≤ 1 / u.ratio := one_div_le_one_div_of_le hr0 hr12
    have hB : 1 - 1 / u.ratio ≤ 11 / 12 := by linarith
    have := mul_le_mul_of_nonneg_right hB hΔ0
    linarith
  unfold Compress.computeMatchScore
  dsimp only
  apply max_jsRound_mono
  rw [her, hea, herel, hemk]
  linarith [hdrop, hfac, habs]

/-- One-sided monotonicity of the compression score in the ratio. -/
lemma compScore_mono_ratio (t u u' : CompressionSettings)
    (heth : u'.threshold = u.threshold) (hea : u'.attack = u.attack)
    (herel : u'.release = u.release) (hemk : u'.makeup = u.makeup)
    (hside : (t.ratio ≤ u.ratio ∧ u.ratio ≤ u'.ratio) ∨
      (u'.ratio ≤ u.ratio ∧ u.ratio ≤ t.ratio))
    (ht1 : 1 ≤ t.ratio) (hu1 : 1 ≤ u.ratio) (hu1' : 1 ≤ u'.ratio)
    (hth : -60 ≤ u.threshold) :
    Compress.computeMatchScore t u' ≤ Compress.computeMatchScore t u := by
  have hu0 : (0 : ℝ) < u.ratio := by linarith
  have hu0' : (0 : ℝ) < u'.ratio := by linarith
  have hdrop : Compress.computeCurveDrift t u - Compress.computeCurveDrift t u' ≤
      (∑ i ∈ Finset.range 31, (2 * (i : ℝ)) * |1 / u.ratio - 1 / u'.ratio|) / 31 :=
    computeCurveDrift_sub_le t u u' _ (fun i hi => by
      have hbd := level_ratio_bound (Compress.driftSample i) u u' heth hemk hth
        (driftSample_bounds i (Finset.mem_range.mp hi)).1 hu0 hu0'
      refine hbd.trans (le_of_eq ?_)
      rw [driftSample_eq]
      ring)
  have hsum : (∑ i ∈ Finset.range 31, (2 * (i : ℝ)) * |1 / u.ratio - 1 / u'.ratio|) =
      930 * |1 / u.ratio - 1 / u'.ratio| := by
    rw [← Finset.sum_mul, ← Finset.mul_sum, sum_range31_id]
    norm_num
  have hlogside : (Real.log t.ratio ≤ Real.log u.ratio ∧
      Real.log u.ratio ≤ Real.log u'.ratio) ∨
      (Real.log u'.ratio ≤ Real.log u.ratio ∧ Real.log u.ratio ≤ Real.log t.ratio) := by
    rcases hside with ⟨h1, h2⟩ | ⟨h1, h2⟩
    · exact Or.inl ⟨Real.log_le_log (by linarith) h1, Real.log_le_log (by linarith) h2⟩
    · exact Or.inr ⟨Real.log_le_log (by linarith) h1, Real.log_le_log (by linarith) h2⟩
  have habs : |Real.log t.ratio - Real.log u'.ratio| =
      |Real.log t.ratio - Real.log u.ratio| +
        |Real.log u.ratio - Real.log u'.ratio| :=
    between_abs_sum _ _ _ hlogside
  have hdom : 33 * |1 / u.ratio - 1 / u'.ratio| ≤
      42 * |Real.log u.ratio - Real.log u'.ratio| := by
    rcases le_total u.ratio u'.ratio with h | h
    · have h1 := log_dominates_inv u.ratio u'.ratio hu1 h
      have e1 : |1 / u.ratio - 1 / u'.ratio| = 1 / u.ratio - 1 / u'.ratio := by
        rw [abs_of_nonneg]
        have := one_div_le_one_div_of_le hu0 h
        linarith
      have e2 : |Real.log u.ratio - Real.log u'.ratio| =
          Real.log u'.ratio - Real.log u.ratio := by
        rw [abs_of_nonpos (by linarith [Real.log_le_log hu0 h])]
        ring
      rw [e1, e2]
      linarith
    · have h1 := log_dominates_inv u'.ratio u.ratio hu1' h
      have e1 : |1 / u.ratio - 1 / u'.ratio| = 1 / u'.ratio - 1 / u.ratio := by
        rw [abs_of_nonpos (by
          have := one_div_le_one_div_of_le hu0' h
          linarith)]
        ring
      have e2 : |Real.log u.ratio - Real.log u'.ratio| =
          Real.log u.ratio - Real.log u'.ratio := by
        rw [abs_of_nonneg (by linarith [Real.log_le_log hu0' h])]
      rw [e1, e2]
      linarith
  rw [hsum] at hdrop
  unfold Compress.computeMatchScore
  dsimp only
  apply max_jsRound_mono
  rw [heth, hea, herel, hemk]
  linarith [hdrop, hdom, habs]

/-- One-sided monotonicity of the compression score in the attack. -/
lemma compScore_mono_attack (t u u' : CompressionSettings)
    (heth : u'.threshold = u.threshold) (her : u'.ratio = u.ratio)
    (herel : u'.release = u.release) (hemk : u'.makeup = u.makeup)
    (hside : (t.attack ≤ u.attack ∧ u.attack ≤ u'.attack) ∨
      (u'.attack ≤ u.attack ∧ u.attack ≤ t.attack))
    (ht0 : 0 < t.attack) (hu0 : 0 < u.attack) (hu0' : 0 < u'.attack) :
    Compress.computeMatchScore t u' ≤ Compress.computeMatchScore t u := by
  have hdrift : Compress.computeCurveDrift t u' = Compress.computeCurveDrift t u := by
    unfold Compress.computeCurveDrift
    rw [Finset.sum_congr rfl fun i _ => by
      rw [getCompressedLevel_congr (Compress.driftSample i) u u' heth her hemk]]
  have hlogside : (Real.log t.attack ≤ Real.log u.attack ∧
      Real.log u.attack ≤ Real.log u'.attack) ∨
      (Real.log u'.attack ≤ Real.log u.attack ∧
        Real.log u.attack ≤ Real.log t.attack) := by
    rcases hside with ⟨h1, h2⟩ | ⟨h1, h2⟩
    · exact Or.inl ⟨Real.log_le_log ht0 h1, Real.log_le_log hu0 h2⟩
    · exact Or.inr ⟨Real.log_le_log hu0' h1, Real.log_le_log hu0 h2⟩
  have habs : |Real.log t.attack - Real.log u'.attack| =
      |Real.log t.attack - Real.log u.attack| +
        |Real.log u.attack - Real.log u'.attack| :=
    between_abs_sum _ _ _ hlogside
  unfold Compress.computeMatchScore
  dsimp only
  apply max_jsRound_mono
  rw [heth, her, herel, hemk, hdrift]
  linarith [habs, abs_nonneg (Real.log u.attack - Real.log u'.attack)]

/-- One-sided monotonicity of the compression score in the release. -/
lemma compScore_mono_release (t u u' : CompressionSettings)
    (heth : u'.threshold = u.threshold) (her : u'.ratio = u.ratio)
    (hea : u'.attack = u.attack) (hemk : u'.makeup = u.makeup)
    (hside : (t.release ≤ u.release ∧ u.release ≤ u'.release) ∨
      (u'.release ≤ u.release ∧ u.release ≤ t.release))
    (ht0 : 0 < t.release) (hu0 : 0 < u.release) (hu0' : 0 < u'.release) :
    Compress.computeMatchScore t u' ≤ Compress.computeMatchScore t u := by
  have hdrift : Compress.computeCurveDrift t u' = Compress.computeCurveDrift t u := by
    unfold Compress.computeCurveDrift
    rw [Finset.sum_congr rfl fun i _ => by
      rw [getCompressedLevel_congr (Compress.driftSample i) u u' heth her hemk]]
  have hlogside : (Real.log t.release ≤ Real.log u.release ∧
      Real.log u.release ≤ Real.log u'.release) ∨
      (Real.log u'.release ≤ Real.log u.release ∧
        Real.log u.release ≤ Real.log t.release) := by
    rcases hside with ⟨h1, h2⟩ | ⟨h1, h2⟩
    · exact Or.inl ⟨Real.log_le_log ht0 h1, Real.log_le_log hu0 h2⟩
    · exact Or.inr ⟨Real.log_le_log hu0' h1, Real.log_le_log hu0 h2⟩
  have habs : |Real.log t.release - Real.log u'.release| =
      |Real.log t.release - Real.log u.release| +
        |Real.log u.release - Real.log u'.release| :=
    between_abs_sum _ _ _ hlogside
  unfold Compress.computeMatchScore
  dsimp only
  apply max_jsRound_mono
  rw [heth, her, hea, hemk, hdrift]
  linarith [habs, abs_nonneg (Real.log u.release - Real.log u'.release)]

/-- One-sided monotonicity of the compression score in the makeup gain. -/
lemma compScore_mono_makeup (t u u' : CompressionSettings)
    (heth : u'.threshold = u.threshold) (her : u'.ratio = u.ratio)
    (hea : u'.attack = u.attack) (herel : u'.release = u.release)
    (hside : (t.makeup ≤ u.makeup ∧ u.makeup ≤ u'.makeup) ∨
      (u'.makeup ≤ u.makeup ∧ u.makeup ≤ t.makeup)) :
    Compress.computeMatchScore t u' ≤ Compress.computeMatchScore t u := by
  have hdrop : Compress.computeCurveDrift t u - Compress.computeCurveDrift t u' ≤
      (∑ _i ∈ Finset.range 31, |u.makeup - u'.makeup|) / 31 :=
    computeCurveDrift_sub_le t u u' _ (fun i _ =>
      le_of_eq (congrArg (fun z => |z|) (level_makeup_diff _ u u' heth her)))
  have hsum : (∑ _i ∈ Finset.range 31, |u.makeup - u'.makeup|) =
      31 * |u.makeup - u'.makeup| := by
    rw [Finset.sum_const, Finset.card_range, nsmul_eq_mul]
    norm_num
  have habs : |t.makeup - u'.makeup| = |t.makeup - u.makeup| + |u.makeup - u'.makeup| :=
    between_abs_sum _ _ _ hside
  rw [hsum] at hdrop
  unfold Compress.computeMatchScore
  dsimp only
  apply max_jsRound_mono
  rw [heth, her, hea, herel]
  linarith [hdrop, habs, abs_nonneg (u.makeup - u'.makeup)]

/-- C2 amended: within the clamped knob domains, the compression
computeMatchScore is monotonically non-increasing as any single user
parameter moves farther from the target on a fixed side of it (one-sided
movement) while all other user parameters are held fixed; two-sided
monotonicity in the raw absolute distance fails for the log-compared
parameters (see the counterexample). -/
theorem c2_score_one_sided_monotone :
    (∀ t u u' : CompressionSettings,
      u'.ratio = u.ratio → u'.attack = u.attack → u'.release = u.release →
      u'.makeup = u.makeup →
      ((t.threshold ≤ u.threshold ∧ u.threshold ≤ u'.threshold) ∨
        (u'.threshold ≤ u.threshold ∧ u.threshold ≤ t.threshold)) →
      -60 ≤ t.threshold → -60 ≤ u'.threshold → 1 ≤ u.ratio → u.ratio ≤ 12 →
      Compress.computeMatchScore t u' ≤ Compress.computeMatchScore t u) ∧
    (∀ t u u' : CompressionSettings,
      u'.threshold = u.threshold → u'.attack = u.attack → u'.release = u.release →
      u'.makeup = u.makeup →
      ((t.ratio ≤ u.ratio ∧ u.ratio ≤ u'.ratio) ∨
        (u'.ratio ≤ u.ratio ∧ u.ratio ≤ t.ratio)) →
      1 ≤ t.ratio → 1 ≤ u.ratio → 1 ≤ u'.ratio → -60 ≤ u.threshold →
      Compress.computeMatchScore t u' ≤ Compress.computeMatchScore t u) ∧
    (∀ t u u' : CompressionSettings,
      u'.threshold = u.threshold → u'.ratio = u.ratio → u'.release = u.release →
      u'.makeup = u.makeup →
      ((t.attack ≤ u.attack ∧ u.attack ≤ u'.attack) ∨
        (u'.attack ≤ u.attack ∧ u.attack ≤ t.attack)) →
      0 < t.attack → 0 < u.attack → 0 < u'.attack →
      Compress.computeMatchScore t u' ≤ Compress.computeMatchScore t u) ∧
    (∀ t u u' : CompressionSettings,
      u'.threshold = u.threshold → u'.ratio = u.ratio → u'.attack = u.attack →
      u'.makeup = u.makeup →
      ((t.release ≤ u.release ∧ u.release ≤ u'.release) ∨
        (u'.release ≤ u.release ∧ u.release ≤ t.release)) →
      0 < t.release → 0 < u.release → 0 < u'.release →
      Compress.computeMatchScore t u' ≤ Compress.computeMatchScore t u) ∧
    (∀ t u u' : CompressionSettings,
      u'.threshold = u.threshold → u'.ratio = u.ratio → u'.attack = u.attack →
      u'.release = u.release →
      ((t.makeup ≤ u.makeup ∧ u.makeup ≤ u'.makeup) ∨
        (u'.makeup ≤ u.makeup ∧ u.makeup ≤ t.makeup)) →
      Compress.computeMatchScore t u' ≤ Compress.computeMatchScore t u) :=
  ⟨fun t u u' her hea herel hemk hside hT hT' hr1 hr12 =>
      compScore_mono_threshold t u u' her hea herel hemk hside hT hT' hr1 hr12,
    fun t u u' heth hea herel hemk hside ht1 hu1 hu1' hth =>
      compScore_mono_ratio t u u' heth hea herel hemk hside ht1 hu1 hu1' hth,
    fun t u u' heth her herel hemk hside ht0 hu0 hu0' =>
      compScore_mono_attack t u u' heth her herel hemk hside ht0 hu0 hu0',
    fun t u u' heth her hea hemk hside ht0 hu0 hu0' =>
      compScore_mono_release t u u' heth her hea hemk hside ht0 hu0 hu0',
    fun t u u' heth her hea herel hside =>
      compScore_mono_makeup t u u' heth her hea herel hside⟩

/-- Witness for the amended C2, one concrete instance per parameter, all
against the target threshold -24 dB, ratio 4, attack 20 ms, release
200 ms, makeup 0 dB. -/
theorem c2_score_one_sided_monotone_witness :
    (((-24 : ℝ) ≤ -20 ∧ (-20 : ℝ) ≤ -10 ∧ (-60 : ℝ) ≤ -24 ∧ (1 : ℝ) ≤ 4 ∧ (4 : ℝ) ≤ 12) ∧
      Compress.computeMatchScore ⟨-24, 4, 20, 200, 0⟩ ⟨-10, 4, 20, 200, 0⟩ ≤
        Compress.computeMatchScore ⟨-24, 4, 20, 200, 0⟩ ⟨-20, 4, 20, 200, 0⟩) ∧
    (((4 : ℝ) ≤ 5 ∧ (5 : ℝ) ≤ 6 ∧ (1 : ℝ) ≤ 4 ∧ (-60 : ℝ) ≤ -24) ∧
      Compress.computeMatchScore ⟨-24, 4, 20, 200, 0⟩ ⟨-24, 6, 20, 200, 0⟩ ≤
        Compress.computeMatchScore ⟨-24, 4, 20, 200, 0⟩ ⟨-24, 5, 20, 200, 0⟩) ∧
    (((20 : ℝ) ≤ 30 ∧ (30 : ℝ) ≤ 40 ∧ (0 : ℝ) < 20) ∧
      Compress.computeMatchScore ⟨-24, 4, 20, 200, 0⟩ ⟨-24, 4, 40, 200, 0⟩ ≤
        Compress.computeMatchScore ⟨-24, 4, 20, 200, 0⟩ ⟨-24, 4, 30, 200, 0⟩) ∧
    (((200 : ℝ) ≤ 300 ∧ (300 : ℝ) ≤ 400 ∧ (0 : ℝ) < 200) ∧
      Compress.computeMatchScore ⟨-24, 4, 20, 200, 0⟩ ⟨-24, 4, 20, 400, 0⟩ ≤
        Compress.computeMatchScore ⟨-24, 4, 20, 200, 0⟩ ⟨-24, 4, 20, 300, 0⟩) ∧
    (((0 : ℝ) ≤ 1 ∧ (1 : ℝ) ≤ 2) ∧
      Compress.computeMatchScore ⟨-24, 4, 20, 200, 0⟩ ⟨-24, 4, 20, 200, 2⟩ ≤
        Compress.computeMatchScore ⟨-24, 4, 20, 200, 0⟩ ⟨-24, 4, 20, 200, 1⟩) := by
  refine ⟨⟨by norm_num, ?_⟩, ⟨by norm_num, ?_⟩, ⟨by norm_num, ?_⟩, ⟨by norm_num, ?_⟩,
    ⟨by norm_num, ?_⟩⟩
  · exact c2_score_one_sided_monotone.1 ⟨-24, 4, 20, 200, 0⟩ ⟨-20, 4, 20, 200, 0⟩
      ⟨-10, 4, 20, 200, 0⟩ rfl rfl rfl rfl (Or.inl ⟨by norm_num, by norm_num⟩)
      (by norm_num) (by norm_num) (by norm_num) (by norm_num)
  · exact c2_score_one_sided_monotone.2.1 ⟨-24, 4, 20, 200, 0⟩ ⟨-24, 5, 20, 200, 0⟩
      ⟨-24, 6, 20, 200, 0⟩ rfl rfl rfl rfl (Or.inl ⟨by norm_num, by norm_num⟩)
      (by norm_num) (by norm_num) (by norm_num) (by norm_num)
  · exact c2_score_one_sided_monotone.2.2.1 ⟨-24, 4, 20, 200, 0⟩ ⟨-24, 4, 30, 200, 0⟩
      ⟨-24, 4, 40, 200, 0⟩ rfl rfl rfl rfl (Or.inl ⟨by norm_num, by norm_num⟩)
      (by norm_num) (by norm_num) (by norm_num)
  · exact c2_score_one_sided_monotone.2.2.2.1 ⟨-24, 4, 20, 200, 0⟩ ⟨-24, 4, 20, 300, 0⟩
      ⟨-24, 4, 20, 400, 0⟩ rfl rfl rfl rfl (Or.inl ⟨by norm_num, by norm_num⟩)
      (by norm_num) (by norm_num) (by norm_num)
  · exact c2_score_one_sided_monotone.2.2.2.2 ⟨-24, 4, 20, 200, 0⟩ ⟨-24, 4, 20, 200, 1⟩
      ⟨-24, 4, 20, 200, 2⟩ rfl rfl rfl rfl (Or.inl ⟨by norm_num, by norm_num⟩)
